import Mathlib

/-!
Verification of the FMCSA carrier-snapshot batch extractor.

The repository holds two near-duplicate pipeline variants of the same
fetch → validate → extract → persist program:

* `src/extractor.js` (namespace `V1` below): markers check, an
  authorization-status filter, an MCS-150 recency filter, then field
  extraction (`extractAllData`) and a 12-column CSV sink;
* `src/unnamed/part_000` (namespace `V2` below): markers check, a
  "Power Units" fleet-size filter, then field extraction (`extractOne`)
  and a 5-column CSV sink.

Documents, identifiers and field values are modelled as `List Char`.
Network effects are modelled by explicit per-attempt outcome functions
(`Nat → Except msg body`); cooperative sleeps are modelled by recording
the requested delay durations.  The JavaScript regular expressions used
by the source are embedded as dedicated deterministic scanners: each
pattern used by the source is simple enough (literals, greedy character
classes with disjoint follow sets, one lazy capture) that its
backtracking behaviour is deterministic, and each scanner mirrors that
behaviour; leftmost-match search is `scanFor`, which tries every start
position in order.
-/

namespace Fm

/-- The whitespace class of the source's regexes (`\s`), restricted to the
ASCII characters that can occur in the documents handled here. -/
def isWs (c : Char) : Bool :=
  c = ' ' || c = '\t' || c = '\n' || c = '\r' || c = '\x0b' || c = '\x0c'

/-- Lower-case a document, modelling `String.prototype.toLowerCase` on the
ASCII range. -/
def lowers (s : List Char) : List Char := s.map Char.toLower

/-- Upper-case a document, modelling `String.prototype.toUpperCase` on the
ASCII range. -/
def uppers (s : List Char) : List Char := s.map Char.toUpper

/-- `hay.includes needle`, modelling `String.prototype.includes`. -/
def includesL : List Char → List Char → Bool
  | hay, needle =>
    if needle.isPrefixOf hay then true
    else
      match hay with
      | [] => false
      | _ :: t => includesL t needle

/-- `\s*`: greedy whitespace skip. -/
def dropWs (cs : List Char) : List Char := cs.dropWhile isWs

/-- Case-insensitive literal match at the head of the input; returns the rest
after the literal when it matches (the `i` flag of the source's regexes). -/
def ciPrefix : List Char → List Char → Option (List Char)
  | [], cs => some cs
  | _ :: _, [] => none
  | p :: ps, c :: cs => if p.toLower = c.toLower then ciPrefix ps cs else none

/-- Leftmost-match search: try a pattern attempt at every start position in
order and return the first success, modelling how a JavaScript regex `match`
scans the subject. -/
def scanFor (attempt : List Char → Option α) : List Char → Option α
  | [] => attempt []
  | c :: cs =>
    match attempt (c :: cs) with
    | some r => some r
    | none => scanFor attempt cs

/-- Trim leading and trailing whitespace (`String.prototype.trim`). -/
def trimL (cs : List Char) : List Char :=
  ((cs.dropWhile isWs).reverse.dropWhile isWs).reverse

/-- `BACKOFF_BASE_MS` of both variants. -/
def BACKOFF_BASE_MS : Nat := 2000

/-- `MAX_RETRIES` of both variants. -/
def MAX_RETRIES : Nat := 3

/-- Did an attempt fail? -/
def isErrE : Except ε α → Bool
  | .error _ => true
  | .ok _ => false

/-- Loop body of `fetchRetry` (both variants, identical code): attempt `i`,
return the body on success, otherwise record the backoff delay
`base * 2 ^ i`, remember the error and move on; after the last attempt the
last error is rethrown.  `attempt i` is the outcome of the `i`-th
`fetchWithTimeout` call; the returned list is the sequence of backoff delays
awaited (`await sleep(backoff)`), in order. -/
def fetchRetryAux (attempt : Nat → Except (List Char) (List Char)) (base : Nat) :
    Nat → Nat → List Nat → Option (List Char) →
    Except (List Char) (List Char) × List Nat
  | _, 0, delays, lastErr =>
    (Except.error (lastErr.getD ("failed after all attempts".toList)), delays)
  | i, rem + 1, delays, _lastErr =>
    match attempt i with
    | Except.ok body => (Except.ok body, delays)
    | Except.error e =>
      fetchRetryAux attempt base (i + 1) rem (delays ++ [base * 2 ^ i]) (some e)

/-- `fetchRetry(url, tries, ...)` of both variants, with the network
abstracted into the per-attempt outcome function.  Returns the final result
together with the list of backoff delays awaited before returning. -/
def fetchRetry (attempt : Nat → Except (List Char) (List Char))
    (tries : Nat) (base : Nat) :
    Except (List Char) (List Char) × List Nat :=
  fetchRetryAux attempt base 0 tries [] none

/-! Shared verdict and orchestrator model follow; all theorems are gathered
at the end of the file. -/

/-! ## Shared verdict and orchestrator model

Both variants' `handleMC` return `{valid:false}` on any rejection or error
and `{valid:true, url}` / `{valid:true, url, row}` on acceptance.  The
`reason` field below is the spec-side tag of the branch that rejected
(the source's rejection returns are distinguished only by their `console.log`
messages); it carries no information used by the orchestrator. -/

/-- Rejection reasons, one per rejecting branch of the two `handleMC`
variants. -/
inductive Reason where
  | notFound
  | notAuthorized
  | stale
  | missingDate
  | emptyFleet
  | fetchError
  deriving DecidableEq, Repr

/-- The value `handleMC` resolves with: `valid`, plus the optional `url` and
`row` properties, plus the spec-side `reason` tag for rejections. -/
structure MCResult (ρ : Type) where
  valid : Bool
  reason : Option Reason
  url : Option (List Char)
  row : Option ρ
  deriving DecidableEq, Repr

/-- The per-identifier lookup address (`mcToSnapshotUrl`): the fixed query
template with the whitespace-stripped identifier appended.  The host
runtime's `encodeURIComponent` percent-escaping is not modelled; no claim
inspects the URL text and identifiers are plain digit strings. -/
def mcToSnapshotUrl (mc : List Char) : List Char :=
  ("https://safer.fmcsa.dot.gov/query.asp?searchtype=ANY&query_type=" ++
   "queryCarrierSnapshot&query_param=MC_MX&query_string=").toList ++
  mc.filter (fun c => !(isWs c))

/-- The `MODE` configuration: `'urls'` short-circuits before extraction,
anything else (the default `'both'`) extracts. -/
inductive Mode where
  | urls
  | both
  deriving DecidableEq, Repr

/-- The case-insensitive not-found / inactive marker check shared by both
variants: `lowHtml.includes('record not found') ||
lowHtml.includes('record inactive')`. -/
def hasMarker (html : List Char) : Bool :=
  includesL (lowers html) ("record not found".toList) ||
  includesL (lowers html) ("record inactive".toList)

/-- Concatenation of a list of lists (`Array.prototype.push` accumulation
across windows flattens to this). -/
def joinL : List (List α) → List α
  | [] => []
  | x :: xs => x ++ joinL xs

/-- The concurrency windows of the orchestrator loop
(`for (let i = 0; i < mcList.length; i += CONCURRENCY) { slice(i, i+CONCURRENCY) }`),
fuelled by the list length; for `0 < k` the fuel is never exhausted. -/
def windowsAux (k : Nat) : Nat → List α → List (List α)
  | _, [] => []
  | 0, _ :: _ => []
  | fuel + 1, x :: xs => (x :: xs).take k :: windowsAux k fuel ((x :: xs).drop k)

/-- The windows of the identifier list, window size `k = CONCURRENCY`. -/
def windows (k : Nat) (l : List α) : List (List α) :=
  windowsAux k l.length l

/-- The per-window accumulation of `run` (both variants):
`if (r?.valid) { if (r.url) validUrls.push(r.url); ... }` restricted to the
rows list. -/
def collectRows (results : List (MCResult ρ)) : List ρ :=
  results.filterMap (fun r => if r.valid then r.row else none)

/-- The per-window accumulation of `run` restricted to the valid-URLs
list. -/
def collectUrls (results : List (MCResult ρ)) : List (List Char) :=
  results.filterMap (fun r => if r.valid then r.url else none)

/-- The orchestrator loop of `run`: process the identifier list window by
window, mapping `handle` (one fetch-validate-extract pipeline per
identifier) over each window and appending the valid rows and valid URLs to
the accumulators.  The inter-window `sleep` only delays; it does not affect
the accumulated value and is not modelled. -/
def runAccum (k : Nat) (handle : List Char → MCResult ρ)
    (mcs : List (List Char)) : List ρ × List (List Char) :=
  (windows k mcs).foldl
    (fun acc w =>
      let results := w.map handle
      (acc.1 ++ collectRows results, acc.2 ++ collectUrls results))
    ([], [])

/-! ## Variant 1: `src/extractor.js` -/

namespace V1

/-- One step of `/<br\s*\/?>/gi`: match `<br`, optional whitespace, optional
`/`, then `>` at the head of the input, returning the rest. -/
def brMatch (cs : List Char) : Option (List Char) :=
  (ciPrefix ("<br".toList) cs).bind fun r1 =>
    match dropWs r1 with
    | '/' :: '>' :: rest => some rest
    | '>' :: rest => some rest
    | _ => none

/-- Global replace of `/<br\s*\/?>/gi` by `", "`, fuelled by the input
length (each step consumes at least one character, so fuel `length + 1`
is never exhausted). -/
def replaceBrF : Nat → List Char → List Char
  | 0, cs => cs
  | _, [] => []
  | fuel + 1, c :: cs =>
    match brMatch (c :: cs) with
    | some rest => ',' :: ' ' :: replaceBrF fuel rest
    | none => c :: replaceBrF fuel cs

/-- Global replace of `/<[^>]*>/g` by a space: a `<` with a later `>` strips
through the first `>`; a `<` with no closing `>` does not match and is
kept. -/
def stripTagsF : Nat → List Char → List Char
  | 0, cs => cs
  | _, [] => []
  | fuel + 1, '<' :: cs =>
    match cs.dropWhile (fun c => c ≠ '>') with
    | '>' :: rest => ' ' :: stripTagsF fuel rest
    | _ => '<' :: stripTagsF fuel cs
  | fuel + 1, c :: cs => c :: stripTagsF fuel cs

/-- Global case-sensitive replace of a fixed literal (the character-entity
replaces `&nbsp;`, `&amp;`, `&lt;`, `&gt;`). -/
def replaceLitF (pat rep : List Char) : Nat → List Char → List Char
  | 0, cs => cs
  | _, [] => []
  | fuel + 1, c :: cs =>
    if pat.isPrefixOf (c :: cs) then
      rep ++ replaceLitF pat rep fuel ((c :: cs).drop pat.length)
    else
      c :: replaceLitF pat rep fuel cs

/-- Global replace of `/\s+/g` by a single space. -/
def collapseWsF : Nat → List Char → List Char
  | 0, cs => cs
  | _, [] => []
  | fuel + 1, c :: cs =>
    if isWs c then ' ' :: collapseWsF fuel (cs.dropWhile isWs)
    else c :: collapseWsF fuel cs

/-- `htmlToText` of `src/extractor.js`: line-break tags to `", "`, strip
tags, decode the four entities, collapse whitespace, trim.  (The empty
string short-circuits, as in the source's falsy check.) -/
def htmlToText (s : List Char) : List Char :=
  if s = [] then []
  else
    let t1 := replaceBrF (s.length + 1) s
    let t2 := stripTagsF (t1.length + 1) t1
    let t3 := replaceLitF ("&nbsp;".toList) [' '] (t2.length + 1) t2
    let t4 := replaceLitF ("&amp;".toList) ['&'] (t3.length + 1) t3
    let t5 := replaceLitF ("&lt;".toList) ['<'] (t4.length + 1) t4
    let t6 := replaceLitF ("&gt;".toList) ['>'] (t5.length + 1) t5
    trimL (collapseWsF (t6.length + 1) t6)

/-- `<td[^>]*>`: the literal `<td`, a greedy run of non-`>` characters, then
`>`; returns the rest after the `>`. -/
def tdOpen (cs : List Char) : Option (List Char) :=
  (ciPrefix ("<td".toList) cs).bind fun r1 =>
    match r1.dropWhile (fun c => c ≠ '>') with
    | '>' :: rest => some rest
    | _ => none

/-- Lazy capture `([\s\S]*?)` up to (and through) a closing literal: the
shortest prefix followed by the literal.  Fails when the literal never
occurs. -/
def lazyCaptureTo (close : List Char) : List Char → Option (List Char × List Char)
  | [] => none
  | c :: cs =>
    match ciPrefix close (c :: cs) with
    | some rest => some ([], rest)
    | none =>
      match lazyCaptureTo close cs with
      | some (cap, rest) => some (c :: cap, rest)
      | none => none

/-- One attempt of `extractDataByHeader`'s pattern
`headerText<\/a><\/th>\s*<td[^>]*>([\s\S]*?)<\/td>` (flag `i`) at a given
start position, yielding the raw capture. -/
def headerAttempt (headerText : List Char) (cs : List Char) : Option (List Char) :=
  (ciPrefix headerText cs).bind fun r1 =>
  (ciPrefix ("</a></th>".toList) r1).bind fun r2 =>
  (tdOpen (dropWs r2)).bind fun r3 =>
  (lazyCaptureTo ("</td>".toList) r3).map (fun p => p.1)

/-- `extractDataByHeader(html, headerText)`: leftmost match of the pattern
above; on a match the capture is flattened with `htmlToText`, otherwise the
empty string. -/
def extractDataByHeader (html headerText : List Char) : List Char :=
  match scanFor (headerAttempt headerText) html with
  | some cap => htmlToText cap
  | none => []

/-- One attempt of `parseAddress`'s pattern
`,?\s*([^,]+),\s*([A-Z]{2})\s*(\d{5}(?:-\d{4})?)` at a given start position
(case-sensitive, as in the source): optional comma, whitespace, a nonempty
run of non-comma characters up to a comma, whitespace, exactly two
upper-case letters, whitespace, five digits with an optional `-dddd`
extension. -/
def addrAttempt (cs : List Char) : Option (List Char × List Char × List Char) :=
  let cs1 := match cs with
    | ',' :: t => t
    | _ => cs
  let cs2 := dropWs cs1
  let city := cs2.takeWhile (fun c => c ≠ ',')
  if city = [] then none
  else
    match cs2.drop city.length with
    | ',' :: r1 =>
      match dropWs r1 with
      | a :: b :: r3 =>
        if a.isUpper && b.isUpper then
          let r4 := dropWs r3
          let zip5 := r4.take 5
          if zip5.length = 5 && zip5.all Char.isDigit then
            match r4.drop 5 with
            | '-' :: r6 =>
              let ext := r6.take 4
              if ext.length = 4 && ext.all Char.isDigit then
                some (city, [a, b], zip5 ++ '-' :: ext)
              else some (city, [a, b], zip5)
            | _ => some (city, [a, b], zip5)
          else none
        else none
      | _ => none
    | _ => none

/-- `parseAddress(addressString)`: empty input or no match yields three empty
components; a match yields the trimmed captures. -/
def parseAddress (s : List Char) : List Char × List Char × List Char :=
  if s = [] then ([], [], [])
  else
    match scanFor addrAttempt s with
    | some (c, st, z) => (trimL c, trimL st, trimL z)
    | none => ([], [], [])

/-- One attempt of `getXMarkedItems`'s pattern
`<td class="queryfield"[^>]*>X<\/td>\s*<td><font[^>]+>([^<]+)<\/font><\/td>`
(flags `gi`), yielding the capture and the rest after the whole match. -/
def xAttempt (cs : List Char) : Option (List Char × List Char) :=
  (ciPrefix ("<td class=\"queryfield\"".toList) cs).bind fun r1 =>
  (match r1.dropWhile (fun c => c ≠ '>') with
   | '>' :: r2 => some r2
   | _ => none).bind fun r2 =>
  (ciPrefix ("X</td>".toList) r2).bind fun r3 =>
  (ciPrefix ("<td><font".toList) (dropWs r3)).bind fun r4 =>
    let attrs := r4.takeWhile (fun c => c ≠ '>')
    if attrs = [] then none
    else
      match r4.drop attrs.length with
      | '>' :: r5 =>
        let cap := r5.takeWhile (fun c => c ≠ '<')
        if cap = [] then none
        else
          (ciPrefix ("</font></td>".toList) (r5.drop cap.length)).map
            (fun r6 => (cap, r6))
      | _ => none

/-- The `exec` loop of `getXMarkedItems` collecting every match's trimmed
capture, scanning left to right and resuming after each match (fuelled by
the input length). -/
def collectXF : Nat → List Char → List (List Char)
  | 0, _ => []
  | _, [] => []
  | fuel + 1, c :: cs =>
    match xAttempt (c :: cs) with
    | some (cap, rest) => trimL cap :: collectXF fuel rest
    | none => collectXF fuel cs

/-- First-seen-order de-duplication (`[...new Set(items)]`). -/
def dedupFirst (l : List (List Char)) : List (List Char) :=
  l.foldl (fun acc x => if x ∈ acc then acc else acc ++ [x]) []

/-- `getXMarkedItems(html)`. -/
def getXMarkedItems (html : List Char) : List (List Char) :=
  dedupFirst (collectXF (html.length + 1) html)

/-- `\d{3,7}` greedy at the head of the input: at least three digits,
capture at most seven. -/
def mcDigits (cs : List Char) : Option (List Char) :=
  let ds := (cs.takeWhile Char.isDigit).take 7
  if ds.length ≥ 3 then some ds else none

/-- One attempt of `extractAllData`'s identifier pattern `MC-?(\d{3,7})`
(flag `i`). -/
def mc1Attempt (cs : List Char) : Option (List Char) :=
  (ciPrefix ("MC".toList) cs).bind fun r1 =>
    match r1 with
    | '-' :: r2 => mcDigits r2
    | _ => mcDigits r1

/-- The flat extracted record of `extractAllData` — one field per key of the
returned object literal, every field a string (empty = absent). -/
structure Rec1 where
  entityType : List Char
  email : List Char
  mcNumber : List Char
  phone : List Char
  url : List Char
  legalName : List Char
  physicalAddress : List Char
  mailingAddress : List Char
  city : List Char
  state : List Char
  zip : List Char
  operationType : List Char
  deriving DecidableEq, Repr

/-- `extractAllData(url, html)` of `src/extractor.js`: label-based fields,
address decomposition of the physical (else mailing) address, the
X-marked-checkbox category in fixed priority order, the `MC-` identifier and
the phone label; `email` is always empty in this variant. -/
def extractAllData (url html : List Char) : Rec1 :=
  let entityType := extractDataByHeader html ("Entity Type:".toList)
  let legalName := extractDataByHeader html ("Legal Name:".toList)
  let physicalAddress := extractDataByHeader html ("Physical Address:".toList)
  let mailingAddress := extractDataByHeader html ("Mailing Address:".toList)
  let addr := parseAddress
    (if physicalAddress = [] then mailingAddress else physicalAddress)
  let xs := getXMarkedItems html
  let operationType :=
    if ("Auth. For Hire".toList) ∈ xs then "Property".toList
    else if ("Passengers".toList) ∈ xs then "Passenger".toList
    else if ("Broker".toList) ∈ xs then "Broker".toList
    else []
  let mcNumber :=
    match scanFor mc1Attempt html with
    | some d => ("MC-".toList) ++ d
    | none => []
  let phone := extractDataByHeader html ("Phone:".toList)
  { entityType := entityType
    email := []
    mcNumber := mcNumber
    phone := phone
    url := url
    legalName := legalName
    physicalAddress := physicalAddress
    mailingAddress := mailingAddress
    city := addr.1
    state := addr.2.1
    zip := addr.2.2
    operationType := operationType }

/-- The character class `[\s\\S]` of the regex literal on the
authorization-status line (`src/extractor.js` line 147).  In a regex
literal `\\` escapes to a literal backslash, so — unlike the `[\s\S]`
any-character class spelled inside string-built regexes elsewhere in the
file — this class matches only whitespace, a backslash, or the letter `S`
(case-insensitively, under the `i` flag). -/
def quirkClass (c : Char) : Bool :=
  isWs c || c = '\\' || c = 'S' || c = 's'

/-- Lazy capture `([\s\\S]*?)` up to a closing literal: every captured
character must lie in `quirkClass`. -/
def lazyCaptureClassTo (close : List Char) :
    List Char → Option (List Char × List Char)
  | [] => none
  | c :: cs =>
    match ciPrefix close (c :: cs) with
    | some rest => some ([], rest)
    | none =>
      if quirkClass c then
        match lazyCaptureClassTo close cs with
        | some (cap, rest) => some (c :: cap, rest)
        | none => none
      else none

/-- One attempt of the authorization-status regex
`Operating Authority Status:<\/a><\/th>\s*<td[^>]*>([\s\\S]*?)<\/td>`
(flag `i`) at a given start position. -/
def authAttempt (cs : List Char) : Option (List Char) :=
  (ciPrefix ("Operating Authority Status:</a></th>".toList) cs).bind fun r1 =>
  (tdOpen (dropWs r1)).bind fun r2 =>
  (lazyCaptureClassTo ("</td>".toList) r2).map (fun p => p.1)

/-- Filter 1 of `handleMC` (`src/extractor.js`): reject when the
status-label match exists and its flattened upper-cased text contains
`NOT AUTHORIZED`. -/
def authRejects (html : List Char) : Bool :=
  match scanFor authAttempt html with
  | some cap =>
    includesL (uppers (htmlToText cap)) ("NOT AUTHORIZED".toList)
  | none => false

/-- `MAX_AGE_DAYS` (`src/extractor.js`). -/
def MAX_AGE_DAYS : Nat := 180

/-- One day in milliseconds (`1000 * 60 * 60 * 24`). -/
def dayMs : Nat := 86400000

/-- `Math.ceil(a / b)` for nonnegative integer millisecond counts. -/
def ceilDivNat (a b : Nat) : Nat := (a + b - 1) / b

/-- Filter 2 of `handleMC` (`src/extractor.js`), given the extracted
`MCS-150 Form Date:` string: an empty string rejects (`missingDate`); a
parseable date older than `MAX_AGE_DAYS` (by `Math.ceil` of the absolute
millisecond difference over a day) rejects (`stale`); an unparseable
nonempty string produces `NaN`, every `NaN` comparison is false, and the
check falls through without rejecting.  `jsDateParse` abstracts the host
runtime's `new Date(s).getTime()`, with `none` for an Invalid Date. -/
def mcs150Check (jsDateParse : List Char → Option Int) (todayMs : Int)
    (dateStr : List Char) : Option Reason :=
  if dateStr = [] then some .missingDate
  else
    match jsDateParse dateStr with
    | some formMs =>
      if ceilDivNat (todayMs - formMs).natAbs dayMs > MAX_AGE_DAYS then
        some .stale
      else none
    | none => none

/-- `handleMC(mc)` of `src/extractor.js` with the network fetch abstracted
into its outcome: marker check, authorization filter, recency filter, then
acceptance (URL only in `urls` mode, otherwise with the extracted row); any
terminal fetch error is caught and resolves to `{valid:false}`. -/
def handleMC (jsDateParse : List Char → Option Int) (todayMs : Int)
    (mode : Mode) (fetchOutcome : Except (List Char) (List Char))
    (mc : List Char) : MCResult Rec1 :=
  let url := mcToSnapshotUrl mc
  match fetchOutcome with
  | .error _ => ⟨false, some .fetchError, none, none⟩
  | .ok html =>
    if hasMarker html then ⟨false, some .notFound, none, none⟩
    else if authRejects html then ⟨false, some .notAuthorized, none, none⟩
    else
      let dateStr := extractDataByHeader html ("MCS-150 Form Date:".toList)
      match mcs150Check jsDateParse todayMs dateStr with
      | some r => ⟨false, some r, none, none⟩
      | none =>
        match mode with
        | .urls => ⟨true, none, some url, none⟩
        | .both => ⟨true, none, some url, some (extractAllData url html)⟩

/-- The fixed CSV column set of this variant's sink. -/
def headers1 : List (List Char) :=
  ["mcNumber".toList, "legalName".toList, "entityType".toList,
   "operationType".toList, "phone".toList, "email".toList,
   "physicalAddress".toList, "mailingAddress".toList, "city".toList,
   "state".toList, "zip".toList, "url".toList]

/-- The row a record serializes to, in header order
(`headers.map(h => r[h] || '')`; every field is a string, and the empty
string is its own fallback). -/
def rowValues (r : Rec1) : List (List Char) :=
  [r.mcNumber, r.legalName, r.entityType, r.operationType, r.phone, r.email,
   r.physicalAddress, r.mailingAddress, r.city, r.state, r.zip, r.url]

end V1

/-! ## Variant 2: `src/unnamed/part_000` -/

namespace V2

/-- One attempt of the fleet-size pattern
`/Power\s*Units[^0-9]*([0-9,]+)/i` at a given start position.  The greedy
`[^0-9]*` runs to the first digit and the capture is the digit/comma run
from there; when no digit follows at all, backtracking shortens `[^0-9]*`
from the right until a class character — necessarily a comma — starts the
capture, so the capture is the single last comma. -/
def puAttempt (cs : List Char) : Option (List Char) :=
  (ciPrefix ("Power".toList) cs).bind fun r1 =>
  (ciPrefix ("Units".toList) (dropWs r1)).bind fun r2 =>
    let after := r2.dropWhile (fun c => !c.isDigit)
    match after with
    | [] => if (',' : Char) ∈ r2 then some [','] else none
    | _ => some (after.takeWhile (fun c => c.isDigit || c = ','))

/-- `Number(captured.replace(/,/g, ''))` on a `[0-9,]+` capture: commas are
stripped; the empty string is the number `0`; a nonempty digit string is its
value; anything else is `NaN` (`none`). -/
def jsNumber (s : List Char) : Option Nat :=
  let t := s.filter (fun c => c ≠ ',')
  if t.all Char.isDigit then
    some (t.foldl (fun a c => a * 10 + (c.toNat - 48)) 0)
  else none

/-- The fleet-size predicate of `handleMC` (`src/unnamed/part_000` lines
175–182): reject exactly when the pattern matches and its parsed value is
zero (`!isNaN(n) && n === 0`). -/
def fleetRejects (html : List Char) : Bool :=
  match scanFor puAttempt html with
  | none => false
  | some cap =>
    match jsNumber cap with
    | some n => n == 0
    | none => false

/-- The extracted record of `extractOne` (one field per key of the object
literal it resolves with). -/
structure Rec2 where
  email : List Char
  mcNumber : List Char
  phone : List Char
  url : List Char
  companyName : List Char
  deriving DecidableEq, Repr

/-- One attempt of the bare identifier pattern `MC[-\s]?(\d{3,7})` (flag
`i`): `MC`, one optional dash-or-whitespace separator, then the digit
capture. -/
def mc0Attempt (cs : List Char) : Option (List Char) :=
  (ciPrefix ("MC".toList) cs).bind fun r1 =>
    match r1 with
    | c :: r2 => if c = '-' || isWs c then V1.mcDigits r2 else V1.mcDigits r1
    | [] => none

/-- The `MC[-\s]?(\d{3,7})` tail shared by the labelled patterns. -/
def mcTail (cs : List Char) : Option (List Char) :=
  (ciPrefix ("MC".toList) cs).bind fun r1 =>
    match r1 with
    | c :: r2 => if c = '-' || isWs c then V1.mcDigits r2 else V1.mcDigits r1
    | [] => none

/-- One attempt of `MC\/MX\/FF Number\(s\):\s*MC[-\s]?(\d{3,7})` (flag
`i`). -/
def p1Attempt (cs : List Char) : Option (List Char) :=
  (ciPrefix ("MC/MX/FF Number(s):".toList) cs).bind fun r =>
    mcTail (dropWs r)

/-- One attempt of `MC\/MX Number:\s*MC[-\s]?(\d{3,7})` (flag `i`). -/
def p2Attempt (cs : List Char) : Option (List Char) :=
  (ciPrefix ("MC/MX Number:".toList) cs).bind fun r =>
    mcTail (dropWs r)

/-- One attempt of `MC\/MX Number:\s*(\d{3,7})` (flag `i`). -/
def p3Attempt (cs : List Char) : Option (List Char) :=
  (ciPrefix ("MC/MX Number:".toList) cs).bind fun r =>
    V1.mcDigits (dropWs r)

/-- First pattern in the list with a match (`for (const p of pats) { ... break }`). -/
def firstCapture : List (List Char → Option (List Char)) → List Char →
    Option (List Char)
  | [], _ => none
  | p :: ps, h =>
    match scanFor p h with
    | some d => some d
    | none => firstCapture ps h

/-- The `mcNumber` computation of `extractOne` (`src/unnamed/part_000`
lines 95–109): try the four patterns in the order they appear in `pats`
(the bare pattern first), prefix the first capture with `MC-`; if none
matched, re-scan with the bare pattern as a fallback. -/
def extractMcNumber (html : List Char) : List Char :=
  match firstCapture [mc0Attempt, p1Attempt, p2Attempt, p3Attempt] html with
  | some d => ("MC-".toList) ++ d
  | none =>
    match scanFor mc0Attempt html with
    | some d => ("MC-".toList) ++ d
    | none => []

/-- Modelled from the spec: the spec's reading of the same extraction,
"an ordered list of candidate patterns from most- to least-specific; the
first pattern that matches wins; a fallback bare-pattern scan applies if
none of the specific patterns match" — the three labelled (specific)
patterns first, the bare pattern only as the fallback. -/
def extractMcNumberSpecOrder (html : List Char) : List Char :=
  match firstCapture [p1Attempt, p2Attempt, p3Attempt] html with
  | some d => ("MC-".toList) ++ d
  | none =>
    match scanFor mc0Attempt html with
    | some d => ("MC-".toList) ++ d
    | none => []

/-- `handleMC(mc)` of `src/unnamed/part_000` with the two fetches
abstracted into their outcomes (`extractOutcome` stands for the row
`extractOne` resolves with, or the error it throws — `extractOne` performs
its own network calls, and a throw there is caught by this function's
`catch`): marker check, fleet-size filter, then acceptance. -/
def handleMC (mode : Mode) (extractOutcome : Except (List Char) Rec2)
    (fetchOutcome : Except (List Char) (List Char)) (mc : List Char) :
    MCResult Rec2 :=
  let url := mcToSnapshotUrl mc
  match fetchOutcome with
  | .error _ => ⟨false, some .fetchError, none, none⟩
  | .ok html =>
    if hasMarker html then ⟨false, some .notFound, none, none⟩
    else if fleetRejects html then ⟨false, some .emptyFleet, none, none⟩
    else
      match mode with
      | .urls => ⟨true, none, some url, none⟩
      | .both =>
        match extractOutcome with
        | .ok row => ⟨true, none, some url, some row⟩
        | .error _ => ⟨false, some .fetchError, none, none⟩

/-- The fixed CSV column set of this variant's sink. -/
def headers2 : List (List Char) :=
  ["email".toList, "mcNumber".toList, "phone".toList, "url".toList,
   "companyName".toList]

/-- The row a record serializes to, in header order. -/
def rowValues (r : Rec2) : List (List Char) :=
  [r.email, r.mcNumber, r.phone, r.url, r.companyName]

end V2

/-! ## The Sink: CSV serialization and a quote-aware reader -/

/-- `String(v).replace(/"/g, '""')`: double every embedded quote. -/
def escQ : List Char → List Char
  | [] => []
  | c :: t => if c = '"' then '"' :: '"' :: escQ t else c :: escQ t

/-- One serialized field: `"${String(v).replace(/"/g, '""')}"`. -/
def quoteF (s : List Char) : List Char := '"' :: (escQ s ++ ['"'])

/-- `Array.prototype.join(',')`. -/
def joinComma : List (List Char) → List Char
  | [] => []
  | [x] => x
  | x :: y :: t => x ++ ',' :: joinComma (y :: t)

/-- `Array.prototype.join('\n')`. -/
def joinNl : List (List Char) → List Char
  | [] => []
  | [x] => x
  | x :: y :: t => x ++ '\n' :: joinNl (y :: t)

/-- The CSV text written by `run` (both variants):
`[headers.join(',')].concat(rows.map(r => headers.map(h => quoted).join(','))).join('\n')` —
an unquoted header line followed by one line of quoted fields per record. -/
def csvText (headers : List (List Char)) (rows : List (List (List Char))) :
    List Char :=
  joinNl (joinComma headers :: rows.map (fun r => joinComma (r.map quoteF)))

/-- A standard quote-aware CSV reader ("re-reading the output as delimited
text"): one pass over the characters with an in-quotes flag, the current
field and the current row; `""` inside quotes is an escaped quote, `,` and
`\n` outside quotes delimit fields and rows. -/
def csvScan : List Char → Bool → List Char → List (List Char) →
    List (List (List Char))
  | [], _, f, row => [row ++ [f]]
  | c :: cs, true, f, row =>
    if c = '"' then
      match cs with
      | c2 :: cs2 =>
        if c2 = '"' then csvScan cs2 true (f ++ ['"']) row
        else csvScan (c2 :: cs2) false f row
      | [] => [row ++ [f]]
    else csvScan cs true (f ++ [c]) row
  | c :: cs, false, f, row =>
    if c = '"' then csvScan cs true f row
    else if c = ',' then csvScan cs false [] (row ++ [f])
    else if c = '\n' then (row ++ [f]) :: csvScan cs false [] []
    else csvScan cs false (f ++ [c]) row

/-- Parse a CSV text into its rows of (unquoted, unescaped) fields. -/
def parseCsv (cs : List Char) : List (List (List Char)) :=
  csvScan cs false [] []

/-! ## Concrete inputs used by counterexamples, code-bug evaluations and
witnesses -/

/-- A document whose `MCS-150 Form Date:` label carries the nonempty but
unparseable value `SOON`. -/
def c4doc : List Char :=
  "ok MCS-150 Form Date:</a></th><td>SOON</td> rest".toList

/-- A date parser on which every string is an Invalid Date, modelling
`new Date('SOON').getTime()` returning `NaN` for the only date string
`c4doc` contains. -/
def invalidDateParse : List Char → Option Int := fun _ => none

/-- A document whose Operating Authority Status value is `NOT AUTHORIZED`
and whose MCS-150 date is fresh. -/
def c6doc : List Char :=
  ("Operating Authority Status:</a></th> <td>NOT AUTHORIZED</td> " ++
   "MCS-150 Form Date:</a></th><td>01/01/2026</td>").toList

/-- A date parser mapping `c6doc`'s date string to epoch-time `0`,
modelling the host `new Date('01/01/2026').getTime()` up to an epoch
shift (only differences of times matter to the recency check). -/
def c6Parse : List Char → Option Int :=
  fun s => if s = "01/01/2026".toList then some 0 else none

/-- A document on which the bare identifier pattern and a specific labelled
identifier pattern match with different captures. -/
def c9doc : List Char := "MC-222 and MC/MX/FF Number(s): MC-111".toList

/-- Concrete per-identifier fetch outcomes for the orchestrator witness:
identifier `2` fails terminally, the others yield marker pages. -/
def wFetch : List Char → Except (List Char) (List Char) :=
  fun mc =>
    if mc = "2".toList then Except.error ("HTTP 500".toList)
    else Except.ok ("Record Not Found".toList)

/-! ## Theorems -/

theorem fetchRetryAux_ok (attempt : Nat → Except (List Char) (List Char))
    (base : Nat) (body : List Char) :
    ∀ k i rem delays lastErr,
      (∀ j, j < k → isErrE (attempt (i + j)) = true) →
      attempt (i + k) = Except.ok body →
      k < rem →
      fetchRetryAux attempt base i rem delays lastErr =
        (Except.ok body,
         delays ++ (List.range k).map (fun j => base * 2 ^ (i + j))) := by
  intro k
  induction k with
  | zero =>
    intro i rem delays lastErr _ hok hlt
    match rem, hlt with
    | rem + 1, _ =>
      simp only [fetchRetryAux]
      rw [show i + 0 = i from rfl] at hok
      rw [hok]
      simp
  | succ k ih =>
    intro i rem delays lastErr herr hok hlt
    match rem, hlt with
    | rem + 1, hlt =>
      simp only [fetchRetryAux]
      have h0 : isErrE (attempt (i + 0)) = true := herr 0 (Nat.succ_pos k)
      rw [show i + 0 = i from rfl] at h0
      match hat : attempt i with
      | Except.ok b => rw [hat] at h0; simp [isErrE] at h0
      | Except.error e =>
        have hrec := ih (i + 1) rem (delays ++ [base * 2 ^ i]) (some e)
          (fun j hj => by
            have := herr (j + 1) (Nat.succ_lt_succ hj)
            rwa [show i + (j + 1) = i + 1 + j by omega] at this)
          (by rwa [show i + 1 + k = i + (k + 1) by omega])
          (Nat.lt_of_succ_lt_succ hlt)
        dsimp only
        rw [hrec, List.append_assoc]
        have hfe : ((fun j => base * 2 ^ (i + j)) ∘ Nat.succ) =
            (fun j => base * 2 ^ (i + 1 + j)) := by
          funext j
          simp only [Function.comp_apply]
          rw [show i + Nat.succ j = i + 1 + j by omega]
        rw [List.range_succ_eq_map, List.map_cons, List.map_map, hfe,
          List.singleton_append]
        simp

theorem sum_pow_two (k : Nat) :
    ((List.range k).map (fun j => 2 ^ j)).sum = 2 ^ k - 1 := by
  induction k with
  | zero => simp
  | succ k ih =>
    rw [List.range_succ, List.map_append, List.sum_append, ih]
    have h1 : (1 : Nat) ≤ 2 ^ k := Nat.one_le_two_pow
    simp [pow_succ]
    omega

theorem sum_map_const_mul (base k : Nat) :
    ((List.range k).map (fun j => base * 2 ^ j)).sum =
      base * ((List.range k).map (fun j => 2 ^ j)).sum := by
  induction k with
  | zero => simp
  | succ k ih =>
    rw [List.range_succ, List.map_append, List.map_append,
      List.sum_append, List.sum_append, ih]
    simp [Nat.mul_add]

/-- C3: a fetch that fails on the first `k` attempts and succeeds on attempt
`k + 1` (`k < tries`) makes `fetchRetry` return the successful body, with the
backoff awaited between attempt `i` and attempt `i + 1` equal to
`base * 2 ^ i` and the cumulative delay awaited before returning equal to
`base * (2 ^ 0 + 2 ^ 1 + ... + 2 ^ (k - 1)) = base * (2 ^ k - 1)`. -/
theorem claim_C3_retry_backoff (attempt : Nat → Except (List Char) (List Char))
    (tries base k : Nat) (body : List Char)
    (herr : ∀ j, j < k → isErrE (attempt j) = true)
    (hok : attempt k = Except.ok body)
    (hk : k < tries) :
    fetchRetry attempt tries base =
      (Except.ok body, (List.range k).map (fun j => base * 2 ^ j)) ∧
    ((List.range k).map (fun j => base * 2 ^ j)).sum =
      ((List.range k).map (fun j => 2 ^ j)).sum * base ∧
    ((List.range k).map (fun j => base * 2 ^ j)).sum = base * (2 ^ k - 1) := by
  have hmain := fetchRetryAux_ok attempt base body k 0 tries [] none
    (fun j hj => by simpa using herr j hj)
    (by simpa using hok) hk
  refine ⟨by simpa [fetchRetry] using hmain, ?_, ?_⟩
  · rw [sum_map_const_mul, Nat.mul_comm]
  · rw [sum_map_const_mul, sum_pow_two]

/-- Witness for C3 at a concrete schedule: attempts 0 and 1 fail, attempt 2
succeeds, with `tries = MAX_RETRIES = 3` and `base = BACKOFF_BASE_MS = 2000`:
the body comes back and the delays awaited are 2000 ms then 4000 ms,
totalling 6000 = 2000 * (2 ^ 2 - 1). -/
theorem claim_C3_witness :
    fetchRetry
        (fun i => if i < 2 then Except.error ("HTTP 500".toList)
                  else Except.ok ("body".toList))
        MAX_RETRIES BACKOFF_BASE_MS =
      (Except.ok ("body".toList), [2000, 4000]) ∧
    ([2000, 4000] : List Nat).sum = 2000 * (2 ^ 2 - 1) := by
  have := claim_C3_retry_backoff
    (fun i => if i < 2 then Except.error ("HTTP 500".toList)
              else Except.ok ("body".toList))
    MAX_RETRIES BACKOFF_BASE_MS 2 ("body".toList)
    (by decide) (by rfl) (by decide)
  refine ⟨?_, by decide⟩
  rw [this.1]
  rfl

theorem windowsAux_join (k : Nat) (hk : 0 < k) :
    ∀ fuel (l : List α), l.length ≤ fuel → joinL (windowsAux k fuel l) = l := by
  intro fuel
  induction fuel with
  | zero =>
    intro l hl
    match l, hl with
    | [], _ => rfl
  | succ fuel ih =>
    intro l hl
    match l with
    | [] => rfl
    | x :: xs =>
      simp only [windowsAux, joinL]
      have hlen : ((x :: xs).drop k).length ≤ fuel := by
        rw [List.length_drop]
        simp only [List.length_cons]
        simp only [List.length_cons] at hl
        omega
      rw [ih _ hlen, List.take_append_drop]

theorem windows_join (k : Nat) (hk : 0 < k) (l : List α) :
    joinL (windows k l) = l :=
  windowsAux_join k hk l.length l (Nat.le_refl _)

theorem collectRows_append (a b : List (MCResult ρ)) :
    collectRows (a ++ b) = collectRows a ++ collectRows b := by
  simp [collectRows, List.filterMap_append]

theorem collectUrls_append (a b : List (MCResult ρ)) :
    collectUrls (a ++ b) = collectUrls a ++ collectUrls b := by
  simp [collectUrls, List.filterMap_append]

theorem runAccum_foldl (handle : List Char → MCResult ρ) :
    ∀ (ws : List (List (List Char))) (a : List ρ) (b : List (List Char)),
      ws.foldl
        (fun acc w =>
          let results := w.map handle
          (acc.1 ++ collectRows results, acc.2 ++ collectUrls results))
        (a, b) =
      (a ++ collectRows ((joinL ws).map handle),
       b ++ collectUrls ((joinL ws).map handle)) := by
  intro ws
  induction ws with
  | nil => intro a b; simp [joinL, collectRows, collectUrls]
  | cons w ws ih =>
    intro a b
    simp only [List.foldl_cons, joinL, List.map_append]
    rw [ih, collectRows_append, collectUrls_append,
      List.append_assoc, List.append_assoc]

/-- C1: a document containing a case-insensitive `record not found` or
`record inactive` marker makes the per-identifier pipeline of either
variant resolve with the rejection verdict `{valid:false}` (tagged
`notFound`), regardless of every other field of the document, the mode,
the date parser, the clock, and the extraction outcome. -/
theorem claim_C1_marker_not_found
    (jsDateParse : List Char → Option Int) (todayMs : Int) (mode : Mode)
    (extractOutcome : Except (List Char) V2.Rec2)
    (mc html : List Char)
    (h : hasMarker html = true) :
    V1.handleMC jsDateParse todayMs mode (.ok html) mc =
      ⟨false, some .notFound, none, none⟩ ∧
    V2.handleMC mode extractOutcome (.ok html) mc =
      ⟨false, some .notFound, none, none⟩ := by
  constructor
  · simp [V1.handleMC, h]
  · simp [V2.handleMC, h]

/-- Witness for C1 at a concrete marker page: both variants reject it with
`notFound`. -/
theorem claim_C1_witness :
    hasMarker ("... Record Inactive ...".toList) = true ∧
    V1.handleMC invalidDateParse 0 .both
        (.ok ("... Record Inactive ...".toList)) ("7".toList) =
      ⟨false, some .notFound, none, none⟩ ∧
    V2.handleMC .both (.error []) (.ok ("... Record Inactive ...".toList))
        ("7".toList) =
      ⟨false, some .notFound, none, none⟩ := by
  have h := claim_C1_marker_not_found invalidDateParse 0 .both (.error [])
    ("7".toList) ("... Record Inactive ...".toList) (by decide)
  exact ⟨by decide, h.1, h.2⟩

/-- C2: per-identifier failures are contained.  `handleMC` is a total
function of the fetch outcome — a terminal fetch error resolves to the
plain `{valid:false}` result (third conjunct) — and the windowed
orchestrator loop accumulates exactly the valid rows and valid URLs of
every identifier in the list, in order: no identifier after a failing one
is skipped, in any window (first conjunct), and every identifier is
processed exactly once (second conjunct). -/
theorem claim_C2_failure_containment
    (k : Nat) (hk : 0 < k)
    (jsDateParse : List Char → Option Int) (todayMs : Int) (mode : Mode)
    (fetchOf : List Char → Except (List Char) (List Char))
    (mcs : List (List Char)) :
    runAccum k
        (fun mc => V1.handleMC jsDateParse todayMs mode (fetchOf mc) mc)
        mcs =
      (collectRows
         (mcs.map (fun mc => V1.handleMC jsDateParse todayMs mode (fetchOf mc) mc)),
       collectUrls
         (mcs.map (fun mc => V1.handleMC jsDateParse todayMs mode (fetchOf mc) mc))) ∧
    (mcs.map (fun mc => V1.handleMC jsDateParse todayMs mode (fetchOf mc) mc)).length
      = mcs.length ∧
    (∀ e mc, V1.handleMC jsDateParse todayMs mode (.error e) mc =
      ⟨false, some .fetchError, none, none⟩) := by
  refine ⟨?_, by simp, fun e mc => rfl⟩
  unfold runAccum
  rw [runAccum_foldl, windows_join k hk]
  simp

/-- Witness for C2: three identifiers in windows of two; the middle
identifier's fetch fails terminally, the others hit marker pages; the
loop still processes all three and accumulates no rows. -/
theorem claim_C2_witness :
    0 < 2 ∧
    runAccum 2
        (fun mc => V1.handleMC invalidDateParse 0 .both (wFetch mc) mc)
        ["1".toList, "2".toList, "3".toList] =
      (collectRows
         ((["1".toList, "2".toList, "3".toList]).map
           (fun mc => V1.handleMC invalidDateParse 0 .both (wFetch mc) mc)),
       collectUrls
         ((["1".toList, "2".toList, "3".toList]).map
           (fun mc => V1.handleMC invalidDateParse 0 .both (wFetch mc) mc))) := by
  exact ⟨by decide,
    (claim_C2_failure_containment 2 (by decide) invalidDateParse 0 .both wFetch
      ["1".toList, "2".toList, "3".toList]).1⟩

theorem ceilDivNat_mul (N b : Nat) (hb : 0 < b) :
    V1.ceilDivNat (N * b) b = N := by
  unfold V1.ceilDivNat
  rw [show N * b + b - 1 = b * N + (b - 1) by
    rw [Nat.mul_comm]; omega]
  rw [Nat.mul_add_div hb, Nat.div_eq_of_lt (by omega), Nat.add_zero]

/-- C4 counterexample: the claim also asserts that an *unparseable*
form-date rejects, but the code computes `Math.ceil` of a `NaN`
difference and `NaN > MAX_AGE_DAYS` is false, so the check falls through:
on `c4doc`, whose `MCS-150 Form Date:` value is the nonempty unparseable
string `SOON` (an Invalid Date for the host parser, modelled by
`invalidDateParse`), the recency check does not reject and the pipeline
accepts the identifier. -/
theorem claim_C4_counterexample :
    V1.extractDataByHeader c4doc ("MCS-150 Form Date:".toList) =
      "SOON".toList ∧
    invalidDateParse ("SOON".toList) = none ∧
    V1.mcs150Check invalidDateParse 0 ("SOON".toList) = none ∧
    (V1.handleMC invalidDateParse 0 .urls (.ok c4doc) ("7".toList)).valid
      = true := by
  refine ⟨by decide, rfl, rfl, by decide⟩

/-- C4 (amended): a form-date exactly `MAX_AGE_DAYS + 1` days in the past
rejects (`stale`); exactly `MAX_AGE_DAYS` days in the past is accepted
(the boundary is inclusive); an absent (empty) form-date rejects
(`missingDate`); but a nonempty *unparseable* form-date is accepted — the
`NaN` comparison is false and the check falls through. -/
theorem claim_C4_recency_boundary
    (parse : List Char → Option Int) (todayMs formMs : Int) (ds : List Char) :
    (ds ≠ [] → parse ds = some formMs →
      (todayMs - formMs).natAbs = (V1.MAX_AGE_DAYS + 1) * V1.dayMs →
      V1.mcs150Check parse todayMs ds = some .stale) ∧
    (ds ≠ [] → parse ds = some formMs →
      (todayMs - formMs).natAbs = V1.MAX_AGE_DAYS * V1.dayMs →
      V1.mcs150Check parse todayMs ds = none) ∧
    (V1.mcs150Check parse todayMs [] = some .missingDate) ∧
    (ds ≠ [] → parse ds = none →
      V1.mcs150Check parse todayMs ds = none) := by
  have hday : 0 < V1.dayMs := by decide
  refine ⟨?_, ?_, by simp [V1.mcs150Check], ?_⟩
  · intro hne hp hd
    simp only [V1.mcs150Check, if_neg hne, hp, hd, ceilDivNat_mul _ _ hday]
    decide
  · intro hne hp hd
    simp only [V1.mcs150Check, if_neg hne, hp, hd, ceilDivNat_mul _ _ hday]
    decide
  · intro hne hp
    simp [V1.mcs150Check, if_neg hne, hp]

/-- Witness for C4's amended statement at concrete dates: with the form
date at epoch 0, a clock 181 days later rejects as stale, a clock 180
days later accepts, and an unparseable nonempty date string is
accepted. -/
theorem claim_C4_witness :
    V1.mcs150Check c6Parse ((181 : Int) * 86400000) ("01/01/2026".toList) =
      some .stale ∧
    V1.mcs150Check c6Parse ((180 : Int) * 86400000) ("01/01/2026".toList) =
      none ∧
    V1.mcs150Check invalidDateParse 0 ("SOON".toList) = none := by
  refine ⟨?_, ?_, ?_⟩
  · exact (claim_C4_recency_boundary c6Parse ((181 : Int) * 86400000) 0
      ("01/01/2026".toList)).1 (by decide) (by rfl) (by decide)
  · exact (claim_C4_recency_boundary c6Parse ((180 : Int) * 86400000) 0
      ("01/01/2026".toList)).2.1 (by decide) (by rfl) (by decide)
  · exact (claim_C4_recency_boundary invalidDateParse 0 0
      ("SOON".toList)).2.2.2 (by decide) (by rfl)

/-- C5: when the `Power Units` pattern's captured value parses to `0`, the
fleet-size predicate rejects and (absent a marker) the pipeline resolves
with the `emptyFleet` rejection before extraction; when it parses to any
`n ≥ 1`, the predicate accepts. -/
theorem claim_C5_fleet_size
    (mode : Mode) (extractOutcome : Except (List Char) V2.Rec2)
    (mc html cap : List Char) (n : Nat) :
    (scanFor V2.puAttempt html = some cap → V2.jsNumber cap = some 0 →
      V2.fleetRejects html = true ∧
      (hasMarker html = false →
        V2.handleMC mode extractOutcome (.ok html) mc =
          ⟨false, some .emptyFleet, none, none⟩)) ∧
    (scanFor V2.puAttempt html = some cap → V2.jsNumber cap = some n →
      1 ≤ n → V2.fleetRejects html = false) := by
  constructor
  · intro hm hn
    have hf : V2.fleetRejects html = true := by
      simp [V2.fleetRejects, hm, hn]
    exact ⟨hf, fun hmk => by simp [V2.handleMC, hmk, hf]⟩
  · intro hm hn h1
    simp only [V2.fleetRejects, hm, hn]
    rw [beq_eq_false_iff_ne]
    omega

/-- Witness for C5: a document with `Power Units` value `0` is rejected
with `emptyFleet`, one with value `5` passes the fleet predicate. -/
theorem claim_C5_witness :
    V2.fleetRejects ("Power Units:</a></th><td>0</td>".toList) = true ∧
    V2.handleMC .urls (.error []) (.ok ("Power Units:</a></th><td>0</td>".toList))
        ("7".toList) = ⟨false, some .emptyFleet, none, none⟩ ∧
    V2.fleetRejects ("Power Units:</a></th><td>5</td>".toList) = false := by
  have h0 := (claim_C5_fleet_size .urls (.error []) ("7".toList)
    ("Power Units:</a></th><td>0</td>".toList) ("0".toList) 0).1
    (by decide) (by decide)
  have h5 := (claim_C5_fleet_size .urls (.error []) ("7".toList)
    ("Power Units:</a></th><td>5</td>".toList) ("5".toList) 5).2
    (by decide) (by decide) (by decide)
  exact ⟨h0.1, h0.2 (by decide), h5⟩

/-- C6 (code bug): the claim — and the source's own comment
`// Filter 1: Must be Authorized` and `SKIPPING (Not Authorized)` log —
intend a rejection when the status value contains `NOT AUTHORIZED`, but
the regex literal's character class is `[\s\\S]` (whitespace, backslash,
or the letter S), not the any-character `[\s\S]`, so the status value of
`c6doc` cannot be captured: the match fails, the filter never fires, and
the pipeline accepts the identifier whose status is exactly
`NOT AUTHORIZED`. -/
theorem claim_C6_auth_filter_dead :
    includesL (uppers c6doc) ("NOT AUTHORIZED".toList) = true ∧
    scanFor V1.authAttempt c6doc = none ∧
    V1.authRejects c6doc = false ∧
    V1.handleMC c6Parse ((10 : Int) * 86400000) .urls (.ok c6doc)
        ("1".toList) =
      ⟨true, none, some (mcToSnapshotUrl ("1".toList)), none⟩ := by
  refine ⟨by decide, by decide, by decide, by decide⟩

/-- C7: field extraction is total and an absent field is the empty string:
a label whose pattern has no match extracts to the empty string; an
address string whose pattern has no match (or the empty address string)
decomposes into three empty components; and `extractAllData` on the empty
document returns the record whose every field is empty except the carried
address. -/
theorem claim_C7_extraction_total
    (url html headerText s : List Char) :
    (scanFor (V1.headerAttempt headerText) html = none →
      V1.extractDataByHeader html headerText = []) ∧
    (scanFor V1.addrAttempt s = none → V1.parseAddress s = ([], [], [])) ∧
    (V1.parseAddress [] = ([], [], [])) ∧
    (V1.extractAllData url [] =
      ⟨[], [], [], [], url, [], [], [], [], [], [], []⟩) := by
  refine ⟨?_, ?_, rfl, rfl⟩
  · intro h
    simp [V1.extractDataByHeader, h]
  · intro h
    by_cases hs : s = []
    · simp [V1.parseAddress, hs]
    · simp [V1.parseAddress, hs, h]

/-- Witness for C7 on concrete non-matching inputs. -/
theorem claim_C7_witness :
    V1.extractDataByHeader ("zzz".toList) ("Legal Name:".toList) = [] ∧
    V1.parseAddress ("garbage".toList) = ([], [], []) := by
  have h := claim_C7_extraction_total [] ("zzz".toList)
    ("Legal Name:".toList) ("garbage".toList)
  exact ⟨h.1 (by decide), h.2.1 (by decide)⟩

/-- C9 counterexample: the patterns are not tried from most- to
least-specific — the bare pattern is first in the list.  On `c9doc` both
the bare pattern (capture `222`, from the leading `MC-222`) and the
most-specific labelled pattern (capture `111`) match; the code returns
`MC-222`, while the spec's most-to-least-specific order
(`extractMcNumberSpecOrder`, modelled from the spec's words) returns
`MC-111`. -/
theorem claim_C9_counterexample :
    V2.extractMcNumber c9doc = "MC-222".toList ∧
    V2.extractMcNumberSpecOrder c9doc = "MC-111".toList ∧
    ¬ V2.extractMcNumber c9doc = V2.extractMcNumberSpecOrder c9doc := by
  refine ⟨by decide, by decide, by decide⟩

/-- C9 (amended): the identifier scan tries the whole document against the
fixed pattern list in source order — the bare 2-letter-prefix pattern
first, then the three labelled patterns — and the first pattern with a
match anywhere in the document wins; the trailing bare-pattern fallback
can never contribute, because it repeats the first pattern of the list,
so when all four patterns fail the result is empty. -/
theorem claim_C9_pattern_order (html : List Char) :
    (∀ d, scanFor V2.mc0Attempt html = some d →
      V2.extractMcNumber html = ("MC-".toList) ++ d) ∧
    (scanFor V2.mc0Attempt html = none →
      ∀ d, scanFor V2.p1Attempt html = some d →
        V2.extractMcNumber html = ("MC-".toList) ++ d) ∧
    (scanFor V2.mc0Attempt html = none → scanFor V2.p1Attempt html = none →
      ∀ d, scanFor V2.p2Attempt html = some d →
        V2.extractMcNumber html = ("MC-".toList) ++ d) ∧
    (scanFor V2.mc0Attempt html = none → scanFor V2.p1Attempt html = none →
      scanFor V2.p2Attempt html = none →
      ∀ d, scanFor V2.p3Attempt html = some d →
        V2.extractMcNumber html = ("MC-".toList) ++ d) ∧
    (scanFor V2.mc0Attempt html = none → scanFor V2.p1Attempt html = none →
      scanFor V2.p2Attempt html = none → scanFor V2.p3Attempt html = none →
      V2.extractMcNumber html = []) := by
  refine ⟨?_, ?_, ?_, ?_, ?_⟩ <;>
    · intros
      simp_all [V2.extractMcNumber, V2.firstCapture]

/-- Witness for C9's amended statement: the bare pattern's capture wins on
`c9doc`, and on a document with only a labelled match the labelled
pattern's capture is used. -/
theorem claim_C9_witness :
    V2.extractMcNumber c9doc = ("MC-".toList) ++ ("222".toList) ∧
    V2.extractMcNumber ("MC/MX Number: 4567".toList) =
      ("MC-".toList) ++ ("4567".toList) := by
  refine ⟨(claim_C9_pattern_order c9doc).1 ("222".toList) (by decide), ?_⟩
  exact (claim_C9_pattern_order ("MC/MX Number: 4567".toList)).2.2.2.1
    (by decide) (by decide) (by decide) ("4567".toList) (by decide)

/-- C10: the fleet-size predicate's implicit edge cases: a document where
the `Power Units` pattern has no match passes the check; when the capture
parses to `n`, the check rejects exactly for `n = 0`; and any rejection
implies the pattern matched and its capture parsed to `0` — in
particular an unparseable capture (`NaN`, guarded by `!isNaN(n)`) never
rejects. -/
theorem claim_C10_fleet_edge_cases (html : List Char) :
    (scanFor V2.puAttempt html = none → V2.fleetRejects html = false) ∧
    (∀ cap n, scanFor V2.puAttempt html = some cap →
      V2.jsNumber cap = some n → V2.fleetRejects html = (n == 0)) ∧
    (V2.fleetRejects html = true →
      ∃ cap, scanFor V2.puAttempt html = some cap ∧
        V2.jsNumber cap = some 0) := by
  refine ⟨?_, ?_, ?_⟩
  · intro h
    simp [V2.fleetRejects, h]
  · intro cap n hm hn
    simp [V2.fleetRejects, hm, hn]
  · intro h
    unfold V2.fleetRejects at h
    rcases hm : scanFor V2.puAttempt html with _ | cap
    · rw [hm] at h; simp at h
    · rw [hm] at h
      dsimp only at h
      rcases hn : V2.jsNumber cap with _ | n
      · rw [hn] at h; simp at h
      · rw [hn] at h
        dsimp only at h
        simp only [Nat.beq_eq_true_eq] at h
        exact ⟨cap, rfl, by rw [hn, h]⟩

/-- Witness for C10: a document with no `Power Units` label passes; a
parsed value of `3` passes; and the rejecting document's capture parses
to `0`. -/
theorem claim_C10_witness :
    V2.fleetRejects ("hello".toList) = false ∧
    V2.fleetRejects ("Power Units: 3".toList) = ((3 : Nat) == 0) ∧
    (∃ cap, scanFor V2.puAttempt ("Power Units: 0".toList) = some cap ∧
      V2.jsNumber cap = some 0) := by
  refine ⟨(claim_C10_fleet_edge_cases ("hello".toList)).1 (by decide), ?_, ?_⟩
  · exact (claim_C10_fleet_edge_cases ("Power Units: 3".toList)).2.1
      ("3".toList) 3 (by decide) (by decide)
  · exact (claim_C10_fleet_edge_cases ("Power Units: 0".toList)).2.2
      (by decide)

theorem csvScan_openQ (cs f : List Char) (row : List (List Char)) :
    csvScan ('"' :: cs) false f row = csvScan cs true f row := by
  simp [csvScan]

theorem csvScan_comma (cs f : List Char) (row : List (List Char)) :
    csvScan (',' :: cs) false f row = csvScan cs false [] (row ++ [f]) := by
  simp [csvScan]

theorem csvScan_nl (cs f : List Char) (row : List (List Char)) :
    csvScan ('\n' :: cs) false f row =
      (row ++ [f]) :: csvScan cs false [] [] := by
  simp [csvScan]

theorem csvScan_plain (c : Char) (cs f : List Char) (row : List (List Char))
    (h1 : c ≠ '"') (h2 : c ≠ ',') (h3 : c ≠ '\n') :
    csvScan (c :: cs) false f row = csvScan cs false (f ++ [c]) row := by
  simp [csvScan, h1, h2, h3]

theorem csvScan_escPair (cs f : List Char) (row : List (List Char)) :
    csvScan ('"' :: '"' :: cs) true f row =
      csvScan cs true (f ++ ['"']) row := by
  simp [csvScan]

theorem csvScan_closeQ (rest f : List Char) (row : List (List Char))
    (h : rest.head? ≠ some '"') :
    csvScan ('"' :: rest) true f row = csvScan rest false f row := by
  match rest with
  | [] => simp [csvScan]
  | c2 :: cs2 =>
    have hc2 : c2 ≠ '"' := fun hc => h (by rw [hc]; rfl)
    simp [csvScan, hc2]

theorem csvScan_inQ (c : Char) (cs f : List Char) (row : List (List Char))
    (h : c ≠ '"') :
    csvScan (c :: cs) true f row = csvScan cs true (f ++ [c]) row := by
  conv_lhs => unfold csvScan
  rw [if_neg h]

theorem csvScan_escQ (v : List Char) :
    ∀ rest f row, rest.head? ≠ some '"' →
      csvScan (escQ v ++ '"' :: rest) true f row =
        csvScan rest false (f ++ v) row := by
  induction v with
  | nil =>
    intro rest f row h
    rw [show escQ [] ++ '"' :: rest = '"' :: rest from rfl,
      csvScan_closeQ rest f row h, List.append_nil]
  | cons c t ih =>
    intro rest f row h
    by_cases hc : c = '"'
    · subst hc
      rw [show escQ ('"' :: t) ++ '"' :: rest =
          '"' :: '"' :: (escQ t ++ '"' :: rest) from by simp [escQ],
        csvScan_escPair, ih rest (f ++ ['"']) row h, List.append_assoc]
      rfl
    · rw [show escQ (c :: t) ++ '"' :: rest =
          c :: (escQ t ++ '"' :: rest) from by simp [escQ, hc],
        csvScan_inQ c _ f row hc, ih rest (f ++ [c]) row h,
        List.append_assoc]
      rfl

theorem csvScan_clean (s : List Char) :
    (∀ c ∈ s, c ≠ '"' ∧ c ≠ ',' ∧ c ≠ '\n') →
    ∀ rest f row, csvScan (s ++ rest) false f row =
      csvScan rest false (f ++ s) row := by
  induction s with
  | nil => intro _ rest f row; simp
  | cons c t ih =>
    intro hs rest f row
    have hc := hs c (by simp)
    rw [show (c :: t) ++ rest = c :: (t ++ rest) from rfl,
      csvScan_plain c _ f row hc.1 hc.2.1 hc.2.2,
      ih (fun x hx => hs x (by simp [hx])) rest (f ++ [c]) row,
      List.append_assoc]
    rfl

theorem csvScan_quoteF (v rest f : List Char) (row : List (List Char))
    (h : rest.head? ≠ some '"') :
    csvScan (quoteF v ++ rest) false f row =
      csvScan rest false (f ++ v) row := by
  rw [show quoteF v ++ rest = '"' :: (escQ v ++ '"' :: rest) from by
      simp [quoteF],
    csvScan_openQ, csvScan_escQ v rest f row h]

theorem csvScan_rowLine_nl (fs : List (List Char)) :
    fs ≠ [] → ∀ rest row,
      csvScan (joinComma (fs.map quoteF) ++ '\n' :: rest) false [] row =
        (row ++ fs) :: csvScan rest false [] [] := by
  induction fs with
  | nil => intro h; exact absurd rfl h
  | cons f t ih =>
    intro _ rest row
    match t with
    | [] =>
      rw [show joinComma ([f].map quoteF) = quoteF f from rfl,
        csvScan_quoteF f ('\n' :: rest) [] row (by simp),
        List.nil_append, csvScan_nl]
    | g :: t2 =>
      rw [show joinComma ((f :: g :: t2).map quoteF) ++ '\n' :: rest =
          quoteF f ++
            (',' :: (joinComma ((g :: t2).map quoteF) ++ '\n' :: rest))
          from by simp [joinComma, List.map_cons, List.append_assoc],
        csvScan_quoteF f _ [] row (by simp),
        List.nil_append, csvScan_comma,
        ih (by simp) rest (row ++ [f]), List.append_assoc]
      rfl

theorem csvScan_rowLine_eof (fs : List (List Char)) :
    fs ≠ [] → ∀ row,
      csvScan (joinComma (fs.map quoteF)) false [] row = [row ++ fs] := by
  induction fs with
  | nil => intro h; exact absurd rfl h
  | cons f t ih =>
    intro _ row
    match t with
    | [] =>
      have h := csvScan_quoteF f [] [] row (by simp)
      rw [List.append_nil] at h
      rw [show joinComma ([f].map quoteF) = quoteF f from rfl, h,
        List.nil_append]
      rfl
    | g :: t2 =>
      rw [show joinComma ((f :: g :: t2).map quoteF) =
          quoteF f ++ (',' :: joinComma ((g :: t2).map quoteF))
          from by simp [joinComma, List.map_cons],
        csvScan_quoteF f _ [] row (by simp), List.nil_append,
        csvScan_comma, ih (by simp) (row ++ [f]), List.append_assoc]
      rfl

theorem csvScan_dataRows (rows : List (List (List Char))) :
    rows ≠ [] → (∀ r ∈ rows, r ≠ []) →
    csvScan (joinNl (rows.map (fun r => joinComma (r.map quoteF))))
        false [] [] = rows := by
  induction rows with
  | nil => intro h; exact absurd rfl h
  | cons r t ih =>
    intro _ hr
    match t with
    | [] =>
      rw [show joinNl ([r].map (fun r => joinComma (r.map quoteF))) =
          joinComma (r.map quoteF) from rfl,
        csvScan_rowLine_eof r (hr r (by simp)) [], List.nil_append]
    | s :: t2 =>
      rw [show joinNl ((r :: s :: t2).map (fun r => joinComma (r.map quoteF)))
            = joinComma (r.map quoteF) ++
              '\n' :: joinNl ((s :: t2).map (fun r => joinComma (r.map quoteF)))
          from rfl,
        csvScan_rowLine_nl r (hr r (by simp)) _ [],
        ih (by simp) (fun x hx => hr x (by simp [hx])), List.nil_append]

theorem csvScan_cleanLine_nl (hs : List (List Char)) :
    hs ≠ [] → (∀ h ∈ hs, ∀ c ∈ h, c ≠ '"' ∧ c ≠ ',' ∧ c ≠ '\n') →
    ∀ rest row,
      csvScan (joinComma hs ++ '\n' :: rest) false [] row =
        (row ++ hs) :: csvScan rest false [] [] := by
  induction hs with
  | nil => intro h; exact absurd rfl h
  | cons f t ih =>
    intro _ hclean rest row
    match t with
    | [] =>
      rw [show joinComma [f] = f from rfl,
        csvScan_clean f (hclean f (by simp)) ('\n' :: rest) [] row,
        List.nil_append, csvScan_nl]
    | g :: t2 =>
      rw [show joinComma (f :: g :: t2) ++ '\n' :: rest =
          f ++ (',' :: (joinComma (g :: t2) ++ '\n' :: rest))
          from by simp [joinComma, List.append_assoc],
        csvScan_clean f (hclean f (by simp)) _ [] row,
        List.nil_append, csvScan_comma,
        ih (by simp) (fun x hx => hclean x (by simp [hx])) rest (row ++ [f]),
        List.append_assoc]
      rfl

theorem csvScan_cleanLine_eof (hs : List (List Char)) :
    hs ≠ [] → (∀ h ∈ hs, ∀ c ∈ h, c ≠ '"' ∧ c ≠ ',' ∧ c ≠ '\n') →
    ∀ row, csvScan (joinComma hs) false [] row = [row ++ hs] := by
  induction hs with
  | nil => intro h; exact absurd rfl h
  | cons f t ih =>
    intro _ hclean row
    match t with
    | [] =>
      have h := csvScan_clean f (hclean f (by simp)) [] [] row
      rw [List.append_nil] at h
      rw [show joinComma [f] = f from rfl, h, List.nil_append]
      rfl
    | g :: t2 =>
      rw [show joinComma (f :: g :: t2) =
          f ++ (',' :: joinComma (g :: t2)) from rfl,
        csvScan_clean f (hclean f (by simp)) _ [] row,
        List.nil_append, csvScan_comma,
        ih (by simp) (fun x hx => hclean x (by simp [hx])) (row ++ [f]),
        List.append_assoc]
      rfl

theorem parseCsv_csvText (headers : List (List Char))
    (rows : List (List (List Char)))
    (hne : headers ≠ [])
    (hclean : ∀ h ∈ headers, ∀ c ∈ h, c ≠ '"' ∧ c ≠ ',' ∧ c ≠ '\n')
    (hr : ∀ r ∈ rows, r ≠ []) :
    parseCsv (csvText headers rows) = headers :: rows := by
  unfold parseCsv csvText
  match rows with
  | [] =>
    rw [show joinNl (joinComma headers ::
          ([] : List (List (List Char))).map (fun r => joinComma (r.map quoteF)))
        = joinComma headers from rfl,
      csvScan_cleanLine_eof headers hne hclean [], List.nil_append]
  | r :: t =>
    rw [show joinNl (joinComma headers ::
          (r :: t).map (fun r => joinComma (r.map quoteF))) =
        joinComma headers ++
          '\n' :: joinNl ((r :: t).map (fun r => joinComma (r.map quoteF)))
        from rfl,
      csvScan_cleanLine_nl headers hne hclean _ [],
      csvScan_dataRows (r :: t) (by simp) hr, List.nil_append]

/-- C8: round-trip through the Sink, for both variants' column sets.
Writing `N` accepted records and re-reading the delimited text with a
quote-aware reader yields exactly the header row followed by the `N` data
rows; every data row has exactly as many fields as the header (absent
values are empty quoted fields, never omitted columns); and every quoted
field, after unquoting and undoubling embedded quote characters, equals
the original field value — this is the content of the row lists being
recovered exactly. -/
theorem claim_C8_sink_roundtrip (rs : List V1.Rec1) (qs : List V2.Rec2) :
    parseCsv (csvText V1.headers1 (rs.map V1.rowValues)) =
      V1.headers1 :: rs.map V1.rowValues ∧
    (parseCsv (csvText V1.headers1 (rs.map V1.rowValues))).length =
      rs.length + 1 ∧
    ((parseCsv (csvText V1.headers1 (rs.map V1.rowValues))).all
      (fun row => row.length == V1.headers1.length)) = true ∧
    parseCsv (csvText V2.headers2 (qs.map V2.rowValues)) =
      V2.headers2 :: qs.map V2.rowValues ∧
    (parseCsv (csvText V2.headers2 (qs.map V2.rowValues))).length =
      qs.length + 1 ∧
    ((parseCsv (csvText V2.headers2 (qs.map V2.rowValues))).all
      (fun row => row.length == V2.headers2.length)) = true := by
  have h1 : parseCsv (csvText V1.headers1 (rs.map V1.rowValues)) =
      V1.headers1 :: rs.map V1.rowValues := by
    apply parseCsv_csvText
    · decide
    · decide
    · intro r hr
      rw [List.mem_map] at hr
      obtain ⟨x, _, rfl⟩ := hr
      simp [V1.rowValues]
  have h2 : parseCsv (csvText V2.headers2 (qs.map V2.rowValues)) =
      V2.headers2 :: qs.map V2.rowValues := by
    apply parseCsv_csvText
    · decide
    · decide
    · intro r hr
      rw [List.mem_map] at hr
      obtain ⟨x, _, rfl⟩ := hr
      simp [V2.rowValues]
  refine ⟨h1, by rw [h1]; simp, ?_, h2, by rw [h2]; simp, ?_⟩
  · rw [h1, List.all_eq_true]
    intro row hrow
    rcases List.mem_cons.mp hrow with h | h
    · subst h; rfl
    · rw [List.mem_map] at h
      obtain ⟨x, _, rfl⟩ := h
      rfl
  · rw [h2, List.all_eq_true]
    intro row hrow
    rcases List.mem_cons.mp hrow with h | h
    · subst h; rfl
    · rw [List.mem_map] at h
      obtain ⟨x, _, rfl⟩ := h
      rfl

end Fm
